import Mathlib

/-!
Verification of the libvirt exporter's concurrent collection orchestrator and
its four metric category modules (cpu, memory, interface, block), as a shallow
embedding of the Go sources.  Hypervisor calls are modelled as an explicit
environment of `Option`-returning functions; the metric output channel is
modelled as the list of samples produced; float64 sample values are modelled
as rationals; the concurrent fan-out joined by a barrier is modelled by the
(order-fixed) concatenation of each work unit's contribution, which is sound
for the counting, decomposition and isolation properties proved below because
each module joins its wait group before `Update` returns.
-/

set_option maxHeartbeats 1000000

namespace LibvirtExporter

/-! ### Data model (libvirt_schema records as read by the collectors) -/

/-- One disk device of a domain schema: `disk.Device`, `disk.Source.File`,
`disk.Target.Device` in the Go XML schema. -/
structure Disk where
  device : String
  sourceFile : String
  targetDevice : String
deriving DecidableEq

/-- One network device of a domain schema: `iface.Target.Device`,
`iface.Source.Bridge`. -/
structure Iface where
  targetDevice : String
  sourceBridge : String
deriving DecidableEq

/-- `Schema.Devices`: the disks and network devices of a domain. -/
structure Devices where
  disks : List Disk
  ifaces : List Iface
deriving DecidableEq

/-- `libvirt_schema.Domain`: the parsed descriptor fields the collectors read. -/
structure DomainSchema where
  uuid : String
  devices : Devices
deriving DecidableEq

/-- `libvirt.Domain`: the opaque connection-scoped handle, with the name field
used for logging and an abstract identity. -/
structure Domain where
  name : String
  ident : Nat
deriving DecidableEq

/-- `libvirt_schema.LvDomain`: handle plus parsed schema, built per cycle. -/
structure LvDomain where
  dom : Domain
  schema : DomainSchema
deriving DecidableEq

/-! ### Hypervisor client environment -/

/-- Result tuple of `DomainBlockStats` (rRdReq, rRdBytes, rWrReq, rWrBytes). -/
structure BlockStats where
  rdReq : Int
  rdBytes : Int
  wrReq : Int
  wrBytes : Int
deriving DecidableEq

/-- Result tuple of `DomainGetBlockInfo` (rAllocation, rCapacity, rPhysical). -/
structure BlockInfo where
  allocation : Nat
  capacity : Nat
  physical : Nat
deriving DecidableEq

/-- Result tuple of `DomainInterfaceStats`. -/
structure IfaceStats where
  rxBytes : Int
  rxPackets : Int
  rxErrs : Int
  rxDrop : Int
  txBytes : Int
  txPackets : Int
  txErrs : Int
  txDrop : Int
deriving DecidableEq

/-- Result tuple of `DomainGetInfo` as used by the cpu collector
(rState, rNrVirtCPU, rCPUTime in nanoseconds). -/
structure DomainInfo where
  state : Nat
  nrVirtCPU : Nat
  cpuTime : Nat
deriving DecidableEq

/-- The hypervisor client (go-libvirt `*libvirt.Libvirt`) as an abstract
environment: connection state, the outcome a `Connect()` call would have, and
every stat-fetch operation the collectors invoke, each fallible (`Option`).
`domainMemoryStats` yields (tag, value) pairs as `DomainMemoryStats` does. -/
structure Hypervisor where
  isConnected : Bool
  connectOk : Bool
  listAllDomains : Option (List Domain)
  getXMLDesc : Domain → Option String
  parseXML : String → Option DomainSchema
  domainGetInfo : Domain → Option DomainInfo
  domainMemoryStats : Domain → Option (List (Nat × Nat))
  domainBlockStats : Domain → String → Option BlockStats
  domainGetBlockInfo : Domain → String → Option BlockInfo
  domainIfaceStats : Domain → String → Option IfaceStats

/-! ### Metrics -/

/-- `prometheus.ValueType` restricted to the two kinds the exporter uses. -/
inductive ValueType where
  | counter
  | gauge
deriving DecidableEq

/-- A produced metric sample: full metric name, value kind, float64 value
(modelled as a rational), and ordered label values. -/
structure Metric where
  name : String
  vtype : ValueType
  value : ℚ
  labelValues : List String
deriving DecidableEq

/-- `BuildFQName(namespace, "scrape", "collector_duration_seconds")`. -/
def scrapeDurationName : String := "libvirt_scrape_collector_duration_seconds"

/-- `BuildFQName(namespace, "scrape", "collector_success")`. -/
def scrapeSuccessName : String := "libvirt_scrape_collector_success"

/-- The designated collector errors of `errors.go`. -/
inductive CollectorErr where
  | errNoData
  | errNotProvided
deriving DecidableEq

/-- `CollectorConfig`: the functional options a collector's `Update` receives.
`pLibvirt` may be absent and `lvDomains` distinguishes nil from empty. -/
structure CollectorConfig where
  pLibvirt : Option Hypervisor
  lvDomains : Option (List LvDomain)

/-! ### Block collector (`block.go`) -/

/-- `disk.Device == "cdrom" || disk.Device == "fq"`: removable media skipped
by the block collector. -/
def removableDisk (dk : Disk) : Bool :=
  dk.device == "cdrom" || dk.device == "fq"

/-- The samples one block work unit (one disk of one domain) sends: the four
`DomainBlockStats` counters, then on `DomainGetBlockInfo` success the three
info gauges; a failed stats call contributes nothing. -/
def blockDiskSamples (hv : Hypervisor) (d : Domain) (uuid : String) (dk : Disk) : List Metric :=
  match hv.domainBlockStats d dk.targetDevice with
  | none => []
  | some s =>
    [⟨"libvirt_domain_block_read_bytes_total", .counter, (s.rdBytes : ℚ), [uuid, dk.sourceFile, dk.targetDevice]⟩,
     ⟨"libvirt_domain_block_read_requests_total", .counter, (s.rdReq : ℚ), [uuid, dk.sourceFile, dk.targetDevice]⟩,
     ⟨"libvirt_domain_block_write_bytes_total", .counter, (s.wrBytes : ℚ), [uuid, dk.sourceFile, dk.targetDevice]⟩,
     ⟨"libvirt_domain_block_write_requests_total", .counter, (s.wrReq : ℚ), [uuid, dk.sourceFile, dk.targetDevice]⟩]
    ++ (match hv.domainGetBlockInfo d dk.sourceFile with
        | none => []
        | some i =>
          [⟨"libvirt_domain_block_capacity_bytes", .gauge, (i.capacity : ℚ), [uuid, dk.sourceFile, dk.targetDevice]⟩,
           ⟨"libvirt_domain_block_allocation_bytes", .gauge, (i.allocation : ℚ), [uuid, dk.sourceFile, dk.targetDevice]⟩,
           ⟨"libvirt_domain_block_physical_bytes", .gauge, (i.physical : ℚ), [uuid, dk.sourceFile, dk.targetDevice]⟩])

/-- `(*blockCollector).Update`: precondition checks, then one work unit per
disk, removable media skipped. -/
def blockUpdate (cfg : CollectorConfig) : List Metric × Option CollectorErr :=
  match cfg.pLibvirt with
  | none => ([], some .errNotProvided)
  | some hv =>
    if !hv.isConnected then ([], some .errNotProvided)
    else
      match cfg.lvDomains with
      | none => ([], some .errNotProvided)
      | some doms =>
        if doms.isEmpty then ([], some .errNotProvided)
        else
          (doms.flatMap fun lv =>
            lv.schema.devices.disks.flatMap fun dk =>
              if removableDisk dk then []
              else blockDiskSamples hv lv.dom lv.schema.uuid dk,
           none)

/-! ### Interface collector (second file of `errors.go` concatenation) -/

/-- The samples one interface work unit sends: the eight `DomainInterfaceStats`
counters, or nothing when the stats call fails. -/
def ifaceUnitSamples (hv : Hypervisor) (d : Domain) (uuid : String) (ifc : Iface) : List Metric :=
  match hv.domainIfaceStats d ifc.targetDevice with
  | none => []
  | some s =>
    [⟨"libvirt_domain_interface_receive_bytes_total", .counter, (s.rxBytes : ℚ), [uuid, ifc.sourceBridge, ifc.targetDevice]⟩,
     ⟨"libvirt_domain_interface_receive_packets_total", .counter, (s.rxPackets : ℚ), [uuid, ifc.sourceBridge, ifc.targetDevice]⟩,
     ⟨"libvirt_domain_interface_receive_errors_total", .counter, (s.rxErrs : ℚ), [uuid, ifc.sourceBridge, ifc.targetDevice]⟩,
     ⟨"libvirt_domain_interface_receive_drops_total", .counter, (s.rxDrop : ℚ), [uuid, ifc.sourceBridge, ifc.targetDevice]⟩,
     ⟨"libvirt_domain_interface_transmit_bytes_total", .counter, (s.txBytes : ℚ), [uuid, ifc.sourceBridge, ifc.targetDevice]⟩,
     ⟨"libvirt_domain_interface_transmit_packets_total", .counter, (s.txPackets : ℚ), [uuid, ifc.sourceBridge, ifc.targetDevice]⟩,
     ⟨"libvirt_domain_interface_transmit_errors_total", .counter, (s.txErrs : ℚ), [uuid, ifc.sourceBridge, ifc.targetDevice]⟩,
     ⟨"libvirt_domain_interface_transmit_drops_total", .counter, (s.txDrop : ℚ), [uuid, ifc.sourceBridge, ifc.targetDevice]⟩]

/-- `(*interfaceCollector).Update`: one work unit per network interface, those
without a resolved target device skipped. -/
def interfaceUpdate (cfg : CollectorConfig) : List Metric × Option CollectorErr :=
  match cfg.pLibvirt with
  | none => ([], some .errNotProvided)
  | some hv =>
    if !hv.isConnected then ([], some .errNotProvided)
    else
      match cfg.lvDomains with
      | none => ([], some .errNotProvided)
      | some doms =>
        if doms.isEmpty then ([], some .errNotProvided)
        else
          (doms.flatMap fun lv =>
            lv.schema.devices.ifaces.flatMap fun ifc =>
              if ifc.targetDevice == "" then []
              else ifaceUnitSamples hv lv.dom lv.schema.uuid ifc,
           none)

/-! ### CPU collector (`cpu.go`, the concurrent variant with a state label) -/

/-- The samples one cpu work unit (one domain) sends: cumulative CPU seconds
(raw nanoseconds divided by 1e9) and the vCPU count, labelled with the domain
UUID and the run state. -/
def cpuDomSamples (hv : Hypervisor) (lv : LvDomain) : List Metric :=
  match hv.domainGetInfo lv.dom with
  | none => []
  | some info =>
    [⟨"libvirt_domain_cpu_seconds_total", .counter, (info.cpuTime : ℚ) / 1000000000, [lv.schema.uuid, toString info.state]⟩,
     ⟨"libvirt_domain_cpu_vcpu_number", .gauge, (info.nrVirtCPU : ℚ), [lv.schema.uuid, toString info.state]⟩]

/-- `(*cpuCollector).Update` of `cpu.go`: one work unit per domain. -/
def cpuUpdate (cfg : CollectorConfig) : List Metric × Option CollectorErr :=
  match cfg.pLibvirt with
  | none => ([], some .errNotProvided)
  | some hv =>
    if !hv.isConnected then ([], some .errNotProvided)
    else
      match cfg.lvDomains with
      | none => ([], some .errNotProvided)
      | some doms =>
        if doms.isEmpty then ([], some .errNotProvided)
        else (doms.flatMap fun lv => cpuDomSamples hv lv, none)

/-- The per-domain samples of the sequential `cpu_linux.go` variant, which
labels with the UUID only and `continue`s on a failed info fetch. -/
def cpuLinuxDomSamples (hv : Hypervisor) (lv : LvDomain) : List Metric :=
  match hv.domainGetInfo lv.dom with
  | none => []
  | some info =>
    [⟨"libvirt_domain_cpu_seconds_total", .counter, (info.cpuTime : ℚ) / 1000000000, [lv.schema.uuid]⟩,
     ⟨"libvirt_domain_cpu_vcpu_number", .gauge, (info.nrVirtCPU : ℚ), [lv.schema.uuid]⟩]

/-- `(*cpuCollector).Update` of `cpu_linux.go`: a sequential loop over domains. -/
def cpuLinuxUpdate (cfg : CollectorConfig) : List Metric × Option CollectorErr :=
  match cfg.pLibvirt with
  | none => ([], some .errNotProvided)
  | some hv =>
    if !hv.isConnected then ([], some .errNotProvided)
    else
      match cfg.lvDomains with
      | none => ([], some .errNotProvided)
      | some doms =>
        if doms.isEmpty then ([], some .errNotProvided)
        else (doms.flatMap fun lv => cpuLinuxDomSamples hv lv, none)

/-! ### Memory collector (`memory.go`) -/

/-- The metric name the memory collector's switch emits for a go-libvirt
memory-stat tag, `none` for an unknown tag (which is only logged). -/
def memStatName (tag : Nat) : Option String :=
  match tag with
  | 0 => some "libvirt_domain_memory_stat_swap_in_bytes"
  | 1 => some "libvirt_domain_memory_stat_swap_out_bytes"
  | 2 => some "libvirt_domain_memory_stat_major_page_faults_number"
  | 3 => some "libvirt_domain_memory_stat_minor_page_faults_number"
  | 4 => some "libvirt_domain_memory_stat_unused_bytes"
  | 5 => some "libvirt_domain_memory_stat_available_bytes"
  | 6 => some "libvirt_domain_memory_stat_actual_ballon_bytes"
  | 7 => some "libvirt_domain_memory_stat_rss_bytes"
  | 8 => some "libvirt_domain_memory_stat_usable_bytes"
  | 9 => some "libvirt_domain_memory_stat_last_update_timestamp_seconds"
  | 10 => some "libvirt_domain_memory_stat_disk_cache_bytes"
  | 11 => some "libvirt_domain_memory_stat_hugetlb_pages_alloc_number"
  | 12 => some "libvirt_domain_memory_stat_hugetlb_page_faults_number"
  | _ => none

/-- The samples one memory work unit (one domain) sends: one gauge per
recognised stat tag returned by `DomainMemoryStats`, nothing on fetch failure. -/
def memDomSamples (hv : Hypervisor) (lv : LvDomain) : List Metric :=
  match hv.domainMemoryStats lv.dom with
  | none => []
  | some stats =>
    stats.flatMap fun tv =>
      match memStatName tv.1 with
      | none => []
      | some nm => [⟨nm, .gauge, (tv.2 : ℚ), [lv.schema.uuid]⟩]

/-- `(*memoryCollector).Update`: one work unit per domain. -/
def memoryUpdate (cfg : CollectorConfig) : List Metric × Option CollectorErr :=
  match cfg.pLibvirt with
  | none => ([], some .errNotProvided)
  | some hv =>
    if !hv.isConnected then ([], some .errNotProvided)
    else
      match cfg.lvDomains with
      | none => ([], some .errNotProvided)
      | some doms =>
        if doms.isEmpty then ([], some .errNotProvided)
        else (doms.flatMap fun lv => memDomSamples hv lv, none)

/-! ### Orchestrator (`Collect` and `execute`) -/

/-- The four registered metric category modules. -/
inductive ModuleKind where
  | cpu
  | memory
  | iface
  | block
deriving DecidableEq

/-- Dispatch of `Collector.Update` over the four modules. -/
def moduleUpdate : ModuleKind → CollectorConfig → List Metric × Option CollectorErr
  | .cpu, cfg => cpuUpdate cfg
  | .memory, cfg => memoryUpdate cfg
  | .iface, cfg => interfaceUpdate cfg
  | .block, cfg => blockUpdate cfg

/-- `execute`: run one module's `Update`, then send exactly one scrape-duration
sample and one scrape-success sample tagged with the module name; success is 1
when `Update` returned no error and 0 otherwise.  The wall-clock duration is a
parameter of the model. -/
def execute (name : String) (kind : ModuleKind) (hv : Option Hypervisor)
    (doms : List LvDomain) (dur : ℚ) : List Metric :=
  let r := moduleUpdate kind ⟨hv, some doms⟩
  let success : ℚ := if r.2.isSome then 0 else 1
  r.1 ++ [⟨scrapeDurationName, .gauge, dur, [name]⟩,
          ⟨scrapeSuccessName, .gauge, success, [name]⟩]

/-- The descriptor loop of `Collect`: fetch and parse every domain's XML,
aborting the whole cycle on the first fetch or parse failure. -/
def buildLvDomains (hv : Hypervisor) : List Domain → Option (List LvDomain)
  | [] => some []
  | d :: rest =>
    match hv.getXMLDesc d with
    | none => none
    | some xml =>
      match hv.parseXML xml with
      | none => none
      | some schema => (buildLvDomains hv rest).map (⟨d, schema⟩ :: ·)

/-- Observable outcome of one `Collect` cycle: the samples sent on the channel
and how many reconnect (`Connect`) attempts were made. -/
structure CollectResult where
  samples : List Metric
  connectAttempts : Nat
deriving DecidableEq

/-- The discovery and fan-out part of `Collect`, entered once connected. -/
def collectBody (hv : Hypervisor) (collectors : List (String × ModuleKind))
    (durs : String → ℚ) (attempts : Nat) : CollectResult :=
  match hv.listAllDomains with
  | none => ⟨[], attempts⟩
  | some ds =>
    match buildLvDomains hv ds with
    | none => ⟨[], attempts⟩
    | some lv =>
      ⟨collectors.flatMap fun p => execute p.1 p.2 (some hv) lv (durs p.1), attempts⟩

/-- `(LibvirtCollector).Collect`: validate the connection (one reconnect
attempt when disconnected), discover and parse all domains, then run every
active module through `execute`. -/
def Collect (pl : Option Hypervisor) (collectors : List (String × ModuleKind))
    (durs : String → ℚ) : CollectResult :=
  match pl with
  | none => ⟨[], 0⟩
  | some hv =>
    if hv.isConnected then collectBody hv collectors durs 0
    else if hv.connectOk then collectBody { hv with isConnected := true } collectors durs 1
    else ⟨[], 1⟩

/-! ### Analysis definitions over the embedded code -/

/-- The shared precondition prologue of every module's `Update`: no client, a
disconnected client, or a nil/empty instance list. -/
def precondFails (cfg : CollectorConfig) : Bool :=
  match cfg.pLibvirt with
  | none => true
  | some hv =>
    !hv.isConnected ||
      (match cfg.lvDomains with
       | none => true
       | some doms => doms.isEmpty)

/-- The barrier size each module computes up front with `wg.Add`:
all domains for cpu/memory, all disks for block, all interfaces for the
interface module. -/
def wgAddCount : ModuleKind → List LvDomain → Nat
  | .cpu, doms => doms.length
  | .memory, doms => doms.length
  | .block, doms => (doms.map fun lv => lv.schema.devices.disks.length).sum
  | .iface, doms => (doms.map fun lv => lv.schema.devices.ifaces.length).sum

/-- `wg.Done` count along the paths of one cpu work unit. -/
def cpuSignals (hv : Hypervisor) (d : Domain) : Nat :=
  match hv.domainGetInfo d with
  | none => 1
  | some _ => 1

/-- `wg.Done` count along the paths of one memory work unit. -/
def memSignals (hv : Hypervisor) (d : Domain) : Nat :=
  match hv.domainMemoryStats d with
  | none => 1
  | some _ => 1

/-- `wg.Done` count along the paths of one disk of the block module:
the removable-media skip path, the failed-stats path, and the success path
each signal once. -/
def blockDiskSignals (hv : Hypervisor) (d : Domain) (dk : Disk) : Nat :=
  if removableDisk dk then 1
  else
    match hv.domainBlockStats d dk.targetDevice with
    | none => 1
    | some _ => 1

/-- `wg.Done` count along the paths of one interface of the interface module. -/
def ifaceSignals (hv : Hypervisor) (d : Domain) (ifc : Iface) : Nat :=
  if ifc.targetDevice == "" then 1
  else
    match hv.domainIfaceStats d ifc.targetDevice with
    | none => 1
    | some _ => 1

/-- Total number of barrier signals a module's `Update` performs. -/
def signalCount : ModuleKind → Hypervisor → List LvDomain → Nat
  | .cpu, hv, doms => (doms.map fun lv => cpuSignals hv lv.dom).sum
  | .memory, hv, doms => (doms.map fun lv => memSignals hv lv.dom).sum
  | .block, hv, doms =>
    (doms.flatMap fun lv => lv.schema.devices.disks.map fun dk => blockDiskSignals hv lv.dom dk).sum
  | .iface, hv, doms =>
    (doms.flatMap fun lv => lv.schema.devices.ifaces.map fun ifc => ifaceSignals hv lv.dom ifc).sum

/-- The work units for which the block module launches a goroutine: one per
non-removable disk across all domains. -/
def blockDispatched (doms : List LvDomain) : List (LvDomain × Disk) :=
  doms.flatMap fun lv =>
    (lv.schema.devices.disks.filter fun dk => !removableDisk dk).map fun dk => (lv, dk)

/-- The work units for which the interface module launches a goroutine: one
per interface with a resolved target device. -/
def ifaceDispatched (doms : List LvDomain) : List (LvDomain × Iface) :=
  doms.flatMap fun lv =>
    (lv.schema.devices.ifaces.filter fun ifc => !(ifc.targetDevice == "")).map fun ifc => (lv, ifc)

/-- The samples of one dispatched block work unit. -/
def blockUnitS (hv : Hypervisor) (u : LvDomain × Disk) : List Metric :=
  blockDiskSamples hv u.1.dom u.1.schema.uuid u.2

/-- The samples of one dispatched interface work unit. -/
def ifaceUnitS (hv : Hypervisor) (u : LvDomain × Iface) : List Metric :=
  ifaceUnitSamples hv u.1.dom u.1.schema.uuid u.2

/-- Number of eligible (dispatched) work units of a module. -/
def dispatchedCount : ModuleKind → List LvDomain → Nat
  | .cpu, doms => doms.length
  | .memory, doms => doms.length
  | .block, doms => (blockDispatched doms).length
  | .iface, doms => (ifaceDispatched doms).length

/-- Descriptor handling fails for a domain when the XML fetch fails or the
fetched XML does not parse. -/
def failsDescriptor (hv : Hypervisor) (d : Domain) : Bool :=
  match hv.getXMLDesc d with
  | none => true
  | some xml => (hv.parseXML xml).isNone

/-- Instance discovery fails: the list call errors, or some listed domain's
descriptor fetch or parse fails. -/
def discoveryFails (hv : Hypervisor) : Prop :=
  hv.listAllDomains = none ∨
    ∃ ds, hv.listAllDomains = some ds ∧ ∃ d ∈ ds, failsDescriptor hv d = true

/-! ### Module registry (`NewLibvirtCollector` and its package-level state) -/

/-- A constructed collector instance; `instId` is the construction serial
number, so two instances are the same object iff they are equal. -/
structure CollectorInst where
  kind : ModuleKind
  instId : Nat
deriving DecidableEq

/-- The package-level registry state: registered names (`collectorState`
keys), their enabled flags, the factory table, the `initiatedCollectors`
cache, and a construction counter modelling object identity. -/
structure Registry where
  names : List String
  enabled : String → Bool
  factoryKind : String → ModuleKind
  initiated : String → Option CollectorInst
  nextId : Nat

/-- The filter validation loop of `NewLibvirtCollector`: every filter must
name a registered, currently enabled collector. -/
def checkFilters (reg : Registry) : List String → Option (List String)
  | [] => some []
  | f :: rest =>
    if f ∈ reg.names then
      if reg.enabled f then (checkFilters reg rest).map (f :: ·)
      else none
    else none

/-- The collector construction loop of `NewLibvirtCollector`: skip disabled
or filtered-out names, reuse a cached instance when present, otherwise
construct one and cache it. -/
def buildLoop (fset : List String) :
    Registry → List String → List (String × CollectorInst) →
      Registry × List (String × CollectorInst)
  | reg, [], acc => (reg, acc)
  | reg, k :: rest, acc =>
    if !reg.enabled k || (!fset.isEmpty && !fset.contains k) then
      buildLoop fset reg rest acc
    else
      match reg.initiated k with
      | some c => buildLoop fset reg rest (acc ++ [(k, c)])
      | none =>
        let c : CollectorInst := ⟨reg.factoryKind k, reg.nextId⟩
        buildLoop fset
          { reg with
            initiated := fun n => if n == k then some c else reg.initiated n,
            nextId := reg.nextId + 1 }
          rest (acc ++ [(k, c)])

/-- `NewLibvirtCollector`: validate filters, then build the active collector
set from the registry, threading the updated cache state. -/
def NewLibvirtCollector (reg : Registry) (filters : List String) :
    Option (Registry × List (String × CollectorInst)) :=
  match checkFilters reg filters with
  | none => none
  | some fset => some (buildLoop fset reg reg.names [])

/-- A sample name is a data name when it is neither scrape-meta name. -/
def isDataName (m : Metric) : Bool :=
  m.name != scrapeDurationName && m.name != scrapeSuccessName

/-! ### Helper lemmas -/

theorem lookup_mem {α β : Type} [BEq α] [LawfulBEq α] (l : List (α × β)) (k : α) (v : β)
    (h : l.lookup k = some v) : (k, v) ∈ l := by
  induction l with
  | nil => simp [List.lookup] at h
  | cons hd tl ih =>
    rw [List.lookup] at h
    by_cases hk : k == hd.1
    · simp [hk] at h
      have hke : k = hd.1 := eq_of_beq hk
      cases hd
      simp_all
    · simp [hk] at h
      exact List.mem_cons_of_mem _ (ih h)

theorem flatMap_skip {α β : Type} (l : List α) (p : α → Bool) (f : α → List β) :
    (l.flatMap fun a => if p a then [] else f a) = (l.filter fun a => !p a).flatMap f := by
  induction l with
  | nil => rfl
  | cons hd tl ih =>
    by_cases hp : p hd <;> simp [hp, ih]

theorem sublist_flatMap_of_mem {α β : Type} (l : List α) (f : α → List β) (a : α)
    (h : a ∈ l) : (f a).Sublist (l.flatMap f) := by
  induction l with
  | nil => simp at h
  | cons hd tl ih =>
    rcases List.mem_cons.mp h with h | h
    · subst h
      exact List.sublist_append_of_sublist_left (List.Sublist.refl _)
    · exact List.sublist_append_of_sublist_right (ih h)

theorem countP_flatMap {α β : Type} (l : List α) (f : α → List β) (p : β → Bool) :
    (l.flatMap f).countP p = (l.map fun a => (f a).countP p).sum := by
  induction l with
  | nil => rfl
  | cons hd tl ih => simp [List.countP_append, ih]

theorem memStatName_data (t : Nat) (nm : String) (h : memStatName t = some nm) :
    (nm != scrapeDurationName && nm != scrapeSuccessName) = true := by
  unfold memStatName at h
  split at h <;> first
    | (injection h with h; subst h; decide)
    | simp at h

theorem blockDiskSamples_data (hv : Hypervisor) (d : Domain) (uuid : String) (dk : Disk) :
    (blockDiskSamples hv d uuid dk).all isDataName = true := by
  unfold blockDiskSamples
  split
  · rfl
  · rw [List.all_append]
    refine Bool.and_eq_true_iff.mpr ⟨?_, ?_⟩
    · simp only [List.all_cons, List.all_nil, isDataName]
      decide
    · split
      · rfl
      · simp only [List.all_cons, List.all_nil, isDataName]
        decide

theorem ifaceUnitSamples_data (hv : Hypervisor) (d : Domain) (uuid : String) (ifc : Iface) :
    (ifaceUnitSamples hv d uuid ifc).all isDataName = true := by
  unfold ifaceUnitSamples
  split
  · rfl
  · simp only [List.all_cons, List.all_nil, isDataName]
    decide

theorem cpuDomSamples_data (hv : Hypervisor) (lv : LvDomain) :
    (cpuDomSamples hv lv).all isDataName = true := by
  unfold cpuDomSamples
  split
  · rfl
  · simp only [List.all_cons, List.all_nil, isDataName]
    decide

theorem cpuLinuxDomSamples_data (hv : Hypervisor) (lv : LvDomain) :
    (cpuLinuxDomSamples hv lv).all isDataName = true := by
  unfold cpuLinuxDomSamples
  split
  · rfl
  · simp only [List.all_cons, List.all_nil, isDataName]
    decide

theorem memDomSamples_data (hv : Hypervisor) (lv : LvDomain) :
    (memDomSamples hv lv).all isDataName = true := by
  unfold memDomSamples
  split
  · rfl
  · rw [List.all_eq_true]
    intro m hm
    rcases List.mem_flatMap.mp hm with ⟨tv, _, hmtv⟩
    revert hmtv
    split
    · intro hmtv
      simp at hmtv
    · rename_i nm hnm
      intro hmtv
      rcases List.mem_singleton.mp hmtv with rfl
      exact memStatName_data _ _ hnm

theorem precondFails_false {cfg : CollectorConfig} (h : precondFails cfg = false) :
    ∃ hv doms, cfg = ⟨some hv, some doms⟩ ∧ hv.isConnected = true ∧ doms.isEmpty = false := by
  rcases cfg with ⟨pl, ld⟩
  cases pl with
  | none => simp [precondFails] at h
  | some hv =>
    cases ld with
    | none => simp [precondFails] at h
    | some doms =>
      simp only [precondFails, Bool.or_eq_false_iff, Bool.not_eq_false'] at h
      exact ⟨hv, doms, rfl, h.1, h.2⟩

theorem blockUpdate_pre (cfg : CollectorConfig) (h : precondFails cfg = true) :
    blockUpdate cfg = ([], some .errNotProvided) := by
  rcases cfg with ⟨pl, ld⟩
  cases pl with
  | none => rfl
  | some hv =>
    cases ld with
    | none =>
      simp only [precondFails] at h
      unfold blockUpdate
      cases hc : hv.isConnected <;> simp [hc]
    | some doms =>
      simp only [precondFails, Bool.or_eq_true_iff, Bool.not_eq_true'] at h
      unfold blockUpdate
      rcases h with h | h <;> simp [h]

theorem interfaceUpdate_pre (cfg : CollectorConfig) (h : precondFails cfg = true) :
    interfaceUpdate cfg = ([], some .errNotProvided) := by
  rcases cfg with ⟨pl, ld⟩
  cases pl with
  | none => rfl
  | some hv =>
    cases ld with
    | none =>
      simp only [precondFails] at h
      unfold interfaceUpdate
      cases hc : hv.isConnected <;> simp [hc]
    | some doms =>
      simp only [precondFails, Bool.or_eq_true_iff, Bool.not_eq_true'] at h
      unfold interfaceUpdate
      rcases h with h | h <;> simp [h]

theorem cpuUpdate_pre (cfg : CollectorConfig) (h : precondFails cfg = true) :
    cpuUpdate cfg = ([], some .errNotProvided) := by
  rcases cfg with ⟨pl, ld⟩
  cases pl with
  | none => rfl
  | some hv =>
    cases ld with
    | none =>
      simp only [precondFails] at h
      unfold cpuUpdate
      cases hc : hv.isConnected <;> simp [hc]
    | some doms =>
      simp only [precondFails, Bool.or_eq_true_iff, Bool.not_eq_true'] at h
      unfold cpuUpdate
      rcases h with h | h <;> simp [h]

theorem cpuLinuxUpdate_pre (cfg : CollectorConfig) (h : precondFails cfg = true) :
    cpuLinuxUpdate cfg = ([], some .errNotProvided) := by
  rcases cfg with ⟨pl, ld⟩
  cases pl with
  | none => rfl
  | some hv =>
    cases ld with
    | none =>
      simp only [precondFails] at h
      unfold cpuLinuxUpdate
      cases hc : hv.isConnected <;> simp [hc]
    | some doms =>
      simp only [precondFails, Bool.or_eq_true_iff, Bool.not_eq_true'] at h
      unfold cpuLinuxUpdate
      rcases h with h | h <;> simp [h]

theorem memoryUpdate_pre (cfg : CollectorConfig) (h : precondFails cfg = true) :
    memoryUpdate cfg = ([], some .errNotProvided) := by
  rcases cfg with ⟨pl, ld⟩
  cases pl with
  | none => rfl
  | some hv =>
    cases ld with
    | none =>
      simp only [precondFails] at h
      unfold memoryUpdate
      cases hc : hv.isConnected <;> simp [hc]
    | some doms =>
      simp only [precondFails, Bool.or_eq_true_iff, Bool.not_eq_true'] at h
      unfold memoryUpdate
      rcases h with h | h <;> simp [h]

theorem blockUpdate_ok (hv : Hypervisor) (doms : List LvDomain) (h1 : hv.isConnected = true)
    (h2 : doms.isEmpty = false) :
    blockUpdate ⟨some hv, some doms⟩ = ((blockDispatched doms).flatMap (blockUnitS hv), none) := by
  have hinner : ∀ lv : LvDomain,
      (lv.schema.devices.disks.flatMap fun dk =>
        if removableDisk dk then [] else blockDiskSamples hv lv.dom lv.schema.uuid dk) =
      ((lv.schema.devices.disks.filter fun dk => !removableDisk dk).map fun dk =>
        ((lv, dk) : LvDomain × Disk)).flatMap (blockUnitS hv) := by
    intro lv
    rw [flatMap_skip, List.flatMap_map]
    rfl
  unfold blockUpdate blockDispatched
  rw [List.flatMap_assoc]
  simp only [h1, h2, Bool.not_true, Bool.false_eq_true, if_false]
  exact congrArg (·, none) (congrArg doms.flatMap (funext hinner))

theorem interfaceUpdate_ok (hv : Hypervisor) (doms : List LvDomain) (h1 : hv.isConnected = true)
    (h2 : doms.isEmpty = false) :
    interfaceUpdate ⟨some hv, some doms⟩ = ((ifaceDispatched doms).flatMap (ifaceUnitS hv), none) := by
  have hinner : ∀ lv : LvDomain,
      (lv.schema.devices.ifaces.flatMap fun ifc =>
        if ifc.targetDevice == "" then [] else ifaceUnitSamples hv lv.dom lv.schema.uuid ifc) =
      ((lv.schema.devices.ifaces.filter fun ifc => !(ifc.targetDevice == "")).map fun ifc =>
        ((lv, ifc) : LvDomain × Iface)).flatMap (ifaceUnitS hv) := by
    intro lv
    rw [flatMap_skip, List.flatMap_map]
    rfl
  unfold interfaceUpdate ifaceDispatched
  rw [List.flatMap_assoc]
  simp only [h1, h2, Bool.not_true, Bool.false_eq_true, if_false]
  exact congrArg (·, none) (congrArg doms.flatMap (funext hinner))

theorem cpuUpdate_ok (hv : Hypervisor) (doms : List LvDomain) (h1 : hv.isConnected = true)
    (h2 : doms.isEmpty = false) :
    cpuUpdate ⟨some hv, some doms⟩ = (doms.flatMap (cpuDomSamples hv), none) := by
  unfold cpuUpdate
  simp [h1, h2]

theorem cpuLinuxUpdate_ok (hv : Hypervisor) (doms : List LvDomain) (h1 : hv.isConnected = true)
    (h2 : doms.isEmpty = false) :
    cpuLinuxUpdate ⟨some hv, some doms⟩ = (doms.flatMap (cpuLinuxDomSamples hv), none) := by
  unfold cpuLinuxUpdate
  simp [h1, h2]

theorem memoryUpdate_ok (hv : Hypervisor) (doms : List LvDomain) (h1 : hv.isConnected = true)
    (h2 : doms.isEmpty = false) :
    memoryUpdate ⟨some hv, some doms⟩ = (doms.flatMap (memDomSamples hv), none) := by
  unfold memoryUpdate
  simp [h1, h2]

theorem moduleUpdate_err (kind : ModuleKind) (cfg : CollectorConfig) :
    (moduleUpdate kind cfg).2 =
      (if precondFails cfg then some CollectorErr.errNotProvided else none) := by
  by_cases h : precondFails cfg = true
  · rw [if_pos h]
    cases kind <;>
      simp only [moduleUpdate, blockUpdate_pre _ h, interfaceUpdate_pre _ h,
        cpuUpdate_pre _ h, memoryUpdate_pre _ h]
  · rw [if_neg h]
    rcases precondFails_false (Bool.not_eq_true _ ▸ h) with ⟨hv, doms, rfl, h1, h2⟩
    cases kind <;>
      simp only [moduleUpdate, blockUpdate_ok hv doms h1 h2, interfaceUpdate_ok hv doms h1 h2,
        cpuUpdate_ok hv doms h1 h2, memoryUpdate_ok hv doms h1 h2]

theorem moduleUpdate_pre_samples (kind : ModuleKind) (cfg : CollectorConfig)
    (h : precondFails cfg = true) : (moduleUpdate kind cfg).1 = [] := by
  cases kind <;>
    simp only [moduleUpdate, blockUpdate_pre _ h, interfaceUpdate_pre _ h,
      cpuUpdate_pre _ h, memoryUpdate_pre _ h]

theorem moduleUpdate_data (kind : ModuleKind) (cfg : CollectorConfig) :
    ((moduleUpdate kind cfg).1).all isDataName = true := by
  by_cases h : precondFails cfg = true
  · rw [moduleUpdate_pre_samples kind cfg h]
    rfl
  · rcases precondFails_false (Bool.not_eq_true _ ▸ h) with ⟨hv, doms, rfl, h1, h2⟩
    rw [List.all_eq_true]
    intro m hm
    cases kind with
    | cpu =>
      rw [moduleUpdate, cpuUpdate_ok hv doms h1 h2] at hm
      rcases List.mem_flatMap.mp hm with ⟨lv, _, hmu⟩
      exact List.all_eq_true.mp (cpuDomSamples_data hv lv) m hmu
    | memory =>
      rw [moduleUpdate, memoryUpdate_ok hv doms h1 h2] at hm
      rcases List.mem_flatMap.mp hm with ⟨lv, _, hmu⟩
      exact List.all_eq_true.mp (memDomSamples_data hv lv) m hmu
    | iface =>
      rw [moduleUpdate, interfaceUpdate_ok hv doms h1 h2] at hm
      rcases List.mem_flatMap.mp hm with ⟨u, _, hmu⟩
      exact List.all_eq_true.mp (ifaceUnitSamples_data hv u.1.dom u.1.schema.uuid u.2) m hmu
    | block =>
      rw [moduleUpdate, blockUpdate_ok hv doms h1 h2] at hm
      rcases List.mem_flatMap.mp hm with ⟨u, _, hmu⟩
      exact List.all_eq_true.mp (blockDiskSamples_data hv u.1.dom u.1.schema.uuid u.2) m hmu

/-- Recogniser of a scrape-duration sample tagged with a module name. -/
def durPred (nm : String) (m : Metric) : Bool :=
  m.name == scrapeDurationName && m.labelValues == [nm]

/-- Recogniser of a scrape-success sample tagged with a module name. -/
def succPred (nm : String) (m : Metric) : Bool :=
  m.name == scrapeSuccessName && m.labelValues == [nm]

theorem countP_durPred_data (nm : String) (l : List Metric) (h : l.all isDataName = true) :
    l.countP (durPred nm) = 0 := by
  rw [List.countP_eq_zero]
  intro m hm hp
  have hd := List.all_eq_true.mp h m hm
  unfold isDataName at hd
  unfold durPred at hp
  rcases Bool.and_eq_true_iff.mp hp with ⟨hp1, _⟩
  rcases Bool.and_eq_true_iff.mp hd with ⟨hd1, _⟩
  exact bne_iff_ne.mp hd1 (beq_iff_eq.mp hp1)

theorem countP_succPred_data (nm : String) (l : List Metric) (h : l.all isDataName = true) :
    l.countP (succPred nm) = 0 := by
  rw [List.countP_eq_zero]
  intro m hm hp
  have hd := List.all_eq_true.mp h m hm
  unfold isDataName at hd
  unfold succPred at hp
  rcases Bool.and_eq_true_iff.mp hp with ⟨hp1, _⟩
  rcases Bool.and_eq_true_iff.mp hd with ⟨_, hd2⟩
  exact bne_iff_ne.mp hd2 (beq_iff_eq.mp hp1)

theorem execute_countP_dur (name nm : String) (kind : ModuleKind) (hv : Option Hypervisor)
    (doms : List LvDomain) (dur : ℚ) :
    (execute name kind hv doms dur).countP (durPred nm) = if name == nm then 1 else 0 := by
  unfold execute
  rw [List.countP_append, countP_durPred_data nm _ (moduleUpdate_data kind _)]
  simp only [List.countP_cons, List.countP_nil, durPred]
  by_cases h : name == nm <;> simp [h, scrapeDurationName, scrapeSuccessName]

theorem execute_countP_succ (name nm : String) (kind : ModuleKind) (hv : Option Hypervisor)
    (doms : List LvDomain) (dur : ℚ) :
    (execute name kind hv doms dur).countP (succPred nm) = if name == nm then 1 else 0 := by
  unfold execute
  rw [List.countP_append, countP_succPred_data nm _ (moduleUpdate_data kind _)]
  simp only [List.countP_cons, List.countP_nil, succPred]
  by_cases h : name == nm <;> simp [h, scrapeDurationName, scrapeSuccessName]

theorem sum_map_ite_count {κ : Type} (colls : List (String × κ)) (nm : String) :
    (colls.map fun p => if p.1 == nm then (1 : Nat) else 0).sum = (colls.map Prod.fst).count nm := by
  induction colls with
  | nil => rfl
  | cons hd tl ih =>
    simp only [List.map_cons, List.sum_cons, List.count_cons, ih]
    by_cases h : (hd.1 == nm) = true
    · simp [h, Nat.add_comm]
    · simp [h]

/-! ### Concrete scenario used to instantiate hypothesis-bearing theorems -/

/-- A concrete domain handle. -/
def domA : Domain := ⟨"dom-a", 0⟩

/-- A non-removable disk whose stats call succeeds. -/
def diskA : Disk := ⟨"disk", "/img/a.qcow2", "vda"⟩

/-- A non-removable disk whose stats call fails. -/
def diskB : Disk := ⟨"disk", "/img/b.qcow2", "vdb"⟩

/-- A cdrom device, skipped by the block module. -/
def diskC : Disk := ⟨"cdrom", "", "hdc"⟩

/-- An interface with a resolved target device. -/
def ifaceA : Iface := ⟨"vnet0", "br0"⟩

/-- An interface without a resolved target device, skipped. -/
def ifaceB : Iface := ⟨"", "br1"⟩

/-- The parsed schema of the concrete domain. -/
def schemaA : DomainSchema := ⟨"uuid-a", ⟨[diskA, diskB, diskC], [ifaceA, ifaceB]⟩⟩

/-- The concrete domain with its schema. -/
def lvA : LvDomain := ⟨domA, schemaA⟩

/-- A connected hypervisor environment over the concrete domain, with the
stats call for `diskB` failing. -/
def hvGood : Hypervisor :=
  { isConnected := true
    connectOk := true
    listAllDomains := some [domA]
    getXMLDesc := fun _ => some "xml-a"
    parseXML := fun s => if s == "xml-a" then some schemaA else none
    domainGetInfo := fun _ => some ⟨1, 2, 2500000000⟩
    domainMemoryStats := fun _ => some [(4, 1024), (5, 2048), (99, 7)]
    domainBlockStats := fun _ dev => if dev == "vda" then some ⟨10, 11, 12, 13⟩ else none
    domainGetBlockInfo := fun _ f => if f == "/img/a.qcow2" then some ⟨100, 200, 300⟩ else none
    domainIfaceStats := fun _ dev => if dev == "vnet0" then some ⟨1, 2, 3, 4, 5, 6, 7, 8⟩ else none }

/-! ### The claims -/

/-- Claim C1: for every completed scrape cycle and every active module,
`execute` emits exactly one scrape-duration sample and exactly one
scrape-success sample tagged with the module's name, regardless of the
module's outcome, and the success sample's value is 1 when `Update` returned
no error and 0 otherwise; at cycle level, a completed cycle's sample stream
holds exactly one such pair per active module. -/
theorem claim1_collection_outcome (kind : ModuleKind) (name : String)
    (hv : Option Hypervisor) (doms : List LvDomain) (dur : ℚ)
    (hvc : Hypervisor) (ds : List Domain) (lvds : List LvDomain)
    (colls : List (String × ModuleKind)) (durs : String → ℚ) :
    ((execute name kind hv doms dur).countP (durPred name) = 1 ∧
     (execute name kind hv doms dur).countP (succPred name) = 1 ∧
     (⟨scrapeSuccessName, .gauge,
        (if (moduleUpdate kind ⟨hv, some doms⟩).2.isSome then 0 else 1), [name]⟩ : Metric) ∈
       execute name kind hv doms dur) ∧
    (hvc.isConnected = true → hvc.listAllDomains = some ds →
     buildLvDomains hvc ds = some lvds → (name, kind) ∈ colls →
     (colls.map Prod.fst).Nodup →
     (Collect (some hvc) colls durs).samples.countP (durPred name) = 1 ∧
     (Collect (some hvc) colls durs).samples.countP (succPred name) = 1) := by
  constructor
  · refine ⟨?_, ?_, ?_⟩
    · rw [execute_countP_dur]
      simp
    · rw [execute_countP_succ]
      simp
    · unfold execute
      exact List.mem_append_right _ (by simp)
  · intro hc hl hb hm hnd
    have hsamples : (Collect (some hvc) colls durs).samples =
        colls.flatMap fun p => execute p.1 p.2 (some hvc) lvds (durs p.1) := by
      simp only [Collect, collectBody, hc, hl, hb, if_true]
    have hcnt : ∀ q : Metric → Bool,
        (∀ nme kd hvx dms dr, (execute nme kd hvx dms dr).countP q = if nme == name then 1 else 0) →
        (Collect (some hvc) colls durs).samples.countP q = 1 := by
      intro q hq
      rw [hsamples, countP_flatMap]
      have : (colls.map fun p => (execute p.1 p.2 (some hvc) lvds (durs p.1)).countP q) =
          colls.map fun p => if p.1 == name then 1 else 0 := by
        exact List.map_congr_left fun p _ => hq p.1 p.2 (some hvc) lvds (durs p.1)
      rw [this, sum_map_ite_count, List.count_eq_one_of_mem hnd (List.mem_map_of_mem Prod.fst hm)]
    constructor
    · exact hcnt _ fun nme kd hvx dms dr => execute_countP_dur nme name kd hvx dms dr
    · exact hcnt _ fun nme kd hvx dms dr => execute_countP_succ nme name kd hvx dms dr

/-- Witness for C1 at a concrete completed cycle with two active modules. -/
theorem claim1_collection_outcome_witness :
    (Collect (some hvGood) [("cpu", ModuleKind.cpu), ("block", ModuleKind.block)]
      (fun _ => 1)).samples.countP (durPred "block") = 1 ∧
    (Collect (some hvGood) [("cpu", ModuleKind.cpu), ("block", ModuleKind.block)]
      (fun _ => 1)).samples.countP (succPred "block") = 1 :=
  (claim1_collection_outcome ModuleKind.block "block" (some hvGood) [lvA] 1 hvGood [domA] [lvA]
    [("cpu", ModuleKind.cpu), ("block", ModuleKind.block)] (fun _ => 1)).2
    rfl rfl (by decide) (by decide) (by decide)

/-- Claim C3: every module's `Update` returns the designated not-provided
error exactly when the client is absent, disconnected, or the instance list
is nil or empty; in that case it emits no samples, and in every other case it
returns nil. -/
theorem claim3_not_provided (kind : ModuleKind) (cfg : CollectorConfig) :
    ((moduleUpdate kind cfg).2 = some CollectorErr.errNotProvided ↔ precondFails cfg = true) ∧
    (moduleUpdate kind cfg).2 =
      (if precondFails cfg then some CollectorErr.errNotProvided else none) ∧
    (precondFails cfg = true → (moduleUpdate kind cfg).1 = []) := by
  refine ⟨?_, moduleUpdate_err kind cfg, moduleUpdate_pre_samples kind cfg⟩
  rw [moduleUpdate_err kind cfg]
  by_cases h : precondFails cfg = true <;> simp [h]

/-- Witness for C3 at a configuration with no client. -/
theorem claim3_not_provided_witness :
    precondFails ⟨none, none⟩ = true ∧ (moduleUpdate ModuleKind.block ⟨none, none⟩).1 = [] :=
  ⟨rfl, (claim3_not_provided ModuleKind.block ⟨none, none⟩).2.2 rfl⟩

/-- Claim C10: within one module's channel output, all data samples are sent
before the scrape-duration sample, which is sent before the scrape-success
sample: the output is exactly the module's data samples (none of which bears
a scrape-meta name) followed by the duration sample followed by the success
sample. -/
theorem claim10_meta_after_data (kind : ModuleKind) (name : String) (hv : Option Hypervisor)
    (doms : List LvDomain) (dur : ℚ) :
    execute name kind hv doms dur =
      (moduleUpdate kind ⟨hv, some doms⟩).1 ++
        [⟨scrapeDurationName, .gauge, dur, [name]⟩,
         ⟨scrapeSuccessName, .gauge,
           (if (moduleUpdate kind ⟨hv, some doms⟩).2.isSome then 0 else 1), [name]⟩] ∧
    ((moduleUpdate kind ⟨hv, some doms⟩).1).all isDataName = true :=
  ⟨rfl, moduleUpdate_data kind _⟩

theorem sum_map_one {α : Type} (l : List α) (f : α → Nat) (h : ∀ a, f a = 1) :
    (l.map f).sum = l.length := by
  induction l with
  | nil => rfl
  | cons hd tl ih => simp [h, ih, Nat.add_comm]

theorem sum_flatMap_nat {α : Type} (l : List α) (f : α → List Nat) :
    (l.flatMap f).sum = (l.map fun a => (f a).sum).sum := by
  induction l with
  | nil => rfl
  | cons hd tl ih => simp [ih]

theorem cpuSignals_one (hv : Hypervisor) (d : Domain) : cpuSignals hv d = 1 := by
  unfold cpuSignals
  split <;> rfl

theorem memSignals_one (hv : Hypervisor) (d : Domain) : memSignals hv d = 1 := by
  unfold memSignals
  split <;> rfl

theorem blockDiskSignals_one (hv : Hypervisor) (d : Domain) (dk : Disk) :
    blockDiskSignals hv d dk = 1 := by
  unfold blockDiskSignals
  split
  · rfl
  · split <;> rfl

theorem ifaceSignals_one (hv : Hypervisor) (d : Domain) (ifc : Iface) :
    ifaceSignals hv d ifc = 1 := by
  unfold ifaceSignals
  split
  · rfl
  · split <;> rfl

/-- Claim C4: every module sizes its completion barrier to the work-unit
count it computes up front, and every task path (success, per-unit fetch
error, or skip) signals the barrier exactly once, so the total signal count
equals the barrier size; under satisfied preconditions the module returns nil,
and with zero eligible work units it still completes, emitting only its
duration sample and a success sample of value 1. -/
theorem claim4_barrier_accounting (kind : ModuleKind) (hv : Hypervisor) (doms : List LvDomain)
    (name : String) (dur : ℚ) :
    signalCount kind hv doms = wgAddCount kind doms ∧
    (hv.isConnected = true → doms ≠ [] →
      (moduleUpdate kind ⟨some hv, some doms⟩).2 = none ∧
      (dispatchedCount kind doms = 0 →
        execute name kind (some hv) doms dur =
          [⟨scrapeDurationName, .gauge, dur, [name]⟩,
           ⟨scrapeSuccessName, .gauge, 1, [name]⟩])) := by
  constructor
  · cases kind with
    | cpu => exact sum_map_one _ _ fun lv => cpuSignals_one hv lv.dom
    | memory => exact sum_map_one _ _ fun lv => memSignals_one hv lv.dom
    | block =>
      show (doms.flatMap fun lv =>
        lv.schema.devices.disks.map fun dk => blockDiskSignals hv lv.dom dk).sum = _
      rw [sum_flatMap_nat]
      exact congrArg List.sum (List.map_congr_left fun lv _ =>
        sum_map_one _ _ fun dk => blockDiskSignals_one hv lv.dom dk)
    | iface =>
      show (doms.flatMap fun lv =>
        lv.schema.devices.ifaces.map fun ifc => ifaceSignals hv lv.dom ifc).sum = _
      rw [sum_flatMap_nat]
      exact congrArg List.sum (List.map_congr_left fun lv _ =>
        sum_map_one _ _ fun ifc => ifaceSignals_one hv lv.dom ifc)
  · intro h1 h2
    have h2' : doms.isEmpty = false := by
      cases doms with
      | nil => exact absurd rfl h2
      | cons hd tl => rfl
    have hpre : precondFails ⟨some hv, some doms⟩ = false := by
      simp [precondFails, h1, h2']
    constructor
    · rw [moduleUpdate_err kind _, hpre]
      rfl
    · intro h0
      have hsamples : (moduleUpdate kind ⟨some hv, some doms⟩).1 = [] := by
        cases kind with
        | cpu =>
          have : doms = [] := List.length_eq_zero.mp h0
          exact absurd this h2
        | memory =>
          have : doms = [] := List.length_eq_zero.mp h0
          exact absurd this h2
        | block =>
          have hd : blockDispatched doms = [] := List.length_eq_zero.mp h0
          rw [moduleUpdate, blockUpdate_ok hv doms h1 h2', hd]
          rfl
        | iface =>
          have hd : ifaceDispatched doms = [] := List.length_eq_zero.mp h0
          rw [moduleUpdate, interfaceUpdate_ok hv doms h1 h2', hd]
          rfl
      simp [execute, hsamples, moduleUpdate_err kind, hpre]

/-- Witness for C4: a connected hypervisor with one domain whose only disk is
a cdrom, so the block module has zero eligible work units. -/
theorem claim4_barrier_accounting_witness :
    hvGood.isConnected = true ∧
    signalCount ModuleKind.block hvGood [⟨domA, ⟨"uuid-c", ⟨[diskC], []⟩⟩⟩] =
      wgAddCount ModuleKind.block [⟨domA, ⟨"uuid-c", ⟨[diskC], []⟩⟩⟩] ∧
    execute "block" ModuleKind.block (some hvGood) [⟨domA, ⟨"uuid-c", ⟨[diskC], []⟩⟩⟩] 1 =
      [⟨scrapeDurationName, .gauge, 1, ["block"]⟩,
       ⟨scrapeSuccessName, .gauge, 1, ["block"]⟩] := by
  have h := claim4_barrier_accounting ModuleKind.block hvGood
    [⟨domA, ⟨"uuid-c", ⟨[diskC], []⟩⟩⟩] "block" 1
  exact ⟨rfl, h.1, (h.2 rfl (by decide) |>.2) (by decide)⟩

/-- Claim C5: removable-media disks (device "cdrom" or the floppy marker
"fq") are never dispatched as block work units and the block samples are
exactly those of the dispatched (non-removable) units, so removable disks
never produce samples; likewise interfaces without a resolved target device
are never dispatched and produce no interface samples. -/
theorem claim5_skip_rules (hv : Hypervisor) (doms : List LvDomain)
    (h1 : hv.isConnected = true) (h2 : doms ≠ []) :
    ((blockDispatched doms).all fun u => !removableDisk u.2) = true ∧
    (blockUpdate ⟨some hv, some doms⟩).1 = (blockDispatched doms).flatMap (blockUnitS hv) ∧
    ((ifaceDispatched doms).all fun u => !(u.2.targetDevice == "")) = true ∧
    (interfaceUpdate ⟨some hv, some doms⟩).1 = (ifaceDispatched doms).flatMap (ifaceUnitS hv) := by
  have h2' : doms.isEmpty = false := by
    cases doms with
    | nil => exact absurd rfl h2
    | cons hd tl => rfl
  refine ⟨?_, by rw [blockUpdate_ok hv doms h1 h2'], ?_, by rw [interfaceUpdate_ok hv doms h1 h2']⟩
  · rw [List.all_eq_true]
    intro u hu
    rcases List.mem_flatMap.mp hu with ⟨lv, _, hmem⟩
    rcases List.mem_map.mp hmem with ⟨dk, hdk, rfl⟩
    exact (List.mem_filter.mp hdk).2
  · rw [List.all_eq_true]
    intro u hu
    rcases List.mem_flatMap.mp hu with ⟨lv, _, hmem⟩
    rcases List.mem_map.mp hmem with ⟨ifc, hifc, rfl⟩
    exact (List.mem_filter.mp hifc).2

/-- Witness for C5 at the concrete scenario (one cdrom disk, one
target-less interface among the devices). -/
theorem claim5_skip_rules_witness :
    ((blockDispatched [lvA]).all fun u => !removableDisk u.2) = true ∧
    (blockUpdate ⟨some hvGood, some [lvA]⟩).1 =
      (blockDispatched [lvA]).flatMap (blockUnitS hvGood) := by
  have h := claim5_skip_rules hvGood [lvA] rfl (by decide)
  exact ⟨h.1, h.2.1⟩

/-- Claim C6: when the stat fetch for one work unit fails, only that unit's
samples are absent: the module's output is still the concatenation of every
work unit's samples (the failed unit contributing none, each sibling's full
contribution appearing as a sublist), and `Update` still returns nil; stated
for the block module (one unit per non-removable disk) and the memory module
(one unit per domain). -/
theorem claim6_unit_failure_isolated (hv : Hypervisor) (doms : List LvDomain)
    (u : LvDomain × Disk) (h1 : hv.isConnected = true) (h2 : doms ≠ [])
    (hu : u ∈ blockDispatched doms)
    (hf : hv.domainBlockStats u.1.dom u.2.targetDevice = none) :
    ((blockUpdate ⟨some hv, some doms⟩).2 = none ∧
     blockUnitS hv u = [] ∧
     (blockUpdate ⟨some hv, some doms⟩).1 = (blockDispatched doms).flatMap (blockUnitS hv) ∧
     ∀ v, v ∈ blockDispatched doms →
       (blockUnitS hv v).Sublist (blockUpdate ⟨some hv, some doms⟩).1) ∧
    ((memoryUpdate ⟨some hv, some doms⟩).2 = none ∧
     (memoryUpdate ⟨some hv, some doms⟩).1 = doms.flatMap (memDomSamples hv) ∧
     (∀ lv, lv ∈ doms → hv.domainMemoryStats lv.dom = none → memDomSamples hv lv = []) ∧
     ∀ lw, lw ∈ doms → (memDomSamples hv lw).Sublist (memoryUpdate ⟨some hv, some doms⟩).1) := by
  have h2' : doms.isEmpty = false := by
    cases doms with
    | nil => exact absurd rfl h2
    | cons hd tl => rfl
  have hok := blockUpdate_ok hv doms h1 h2'
  have hmok := memoryUpdate_ok hv doms h1 h2'
  refine ⟨⟨by rw [hok], ?_, by rw [hok], ?_⟩, by rw [hmok], by rw [hmok], ?_, ?_⟩
  · unfold blockUnitS blockDiskSamples
    rw [hf]
  · intro v hv'
    rw [hok]
    exact sublist_flatMap_of_mem _ _ v hv'
  · intro lv _ hnone
    unfold memDomSamples
    rw [hnone]
  · intro lw hlw
    rw [hmok]
    exact sublist_flatMap_of_mem _ _ lw hlw

/-- Witness for C6: in the concrete scenario the stats call for `diskB`
fails while its sibling `diskA` succeeds. -/
theorem claim6_unit_failure_isolated_witness :
    (blockUpdate ⟨some hvGood, some [lvA]⟩).2 = none ∧
    blockUnitS hvGood (lvA, diskB) = [] ∧
    (blockUnitS hvGood (lvA, diskA)).Sublist (blockUpdate ⟨some hvGood, some [lvA]⟩).1 := by
  have h := claim6_unit_failure_isolated hvGood [lvA] (lvA, diskB) rfl (by decide)
    (by decide) (by decide)
  exact ⟨h.1.1, h.1.2.1, h.1.2.2.2 (lvA, diskA) (by decide)⟩

/-- Claim C7: for every instance whose info fetch succeeds, the cpu module
(both the concurrent `cpu.go` variant and the sequential `cpu_linux.go`
variant) emits a `domain_cpu_seconds_total` sample whose value is the raw
nanosecond CPU time divided by 1e9, and a vCPU-count gauge passed through
unconverted. -/
theorem claim7_cpu_seconds_conversion (hv : Hypervisor) (doms : List LvDomain)
    (lv : LvDomain) (info : DomainInfo) (h1 : hv.isConnected = true) (h2 : doms ≠ [])
    (hlv : lv ∈ doms) (hi : hv.domainGetInfo lv.dom = some info) :
    (⟨"libvirt_domain_cpu_seconds_total", .counter, (info.cpuTime : ℚ) / 1000000000,
       [lv.schema.uuid, toString info.state]⟩ : Metric) ∈ (cpuUpdate ⟨some hv, some doms⟩).1 ∧
    (⟨"libvirt_domain_cpu_vcpu_number", .gauge, (info.nrVirtCPU : ℚ),
       [lv.schema.uuid, toString info.state]⟩ : Metric) ∈ (cpuUpdate ⟨some hv, some doms⟩).1 ∧
    (⟨"libvirt_domain_cpu_seconds_total", .counter, (info.cpuTime : ℚ) / 1000000000,
       [lv.schema.uuid]⟩ : Metric) ∈ (cpuLinuxUpdate ⟨some hv, some doms⟩).1 ∧
    (⟨"libvirt_domain_cpu_vcpu_number", .gauge, (info.nrVirtCPU : ℚ),
       [lv.schema.uuid]⟩ : Metric) ∈ (cpuLinuxUpdate ⟨some hv, some doms⟩).1 := by
  have h2' : doms.isEmpty = false := by
    cases doms with
    | nil => exact absurd rfl h2
    | cons hd tl => rfl
  refine ⟨?_, ?_, ?_, ?_⟩
  · rw [cpuUpdate_ok hv doms h1 h2']
    exact List.mem_flatMap.mpr ⟨lv, hlv, by simp [cpuDomSamples, hi]⟩
  · rw [cpuUpdate_ok hv doms h1 h2']
    exact List.mem_flatMap.mpr ⟨lv, hlv, by simp [cpuDomSamples, hi]⟩
  · rw [cpuLinuxUpdate_ok hv doms h1 h2']
    exact List.mem_flatMap.mpr ⟨lv, hlv, by simp [cpuLinuxDomSamples, hi]⟩
  · rw [cpuLinuxUpdate_ok hv doms h1 h2']
    exact List.mem_flatMap.mpr ⟨lv, hlv, by simp [cpuLinuxDomSamples, hi]⟩

/-- Witness for C7: raw CPU time 2,500,000,000 ns yields a seconds sample of
value 5/2 = 2.5. -/
theorem claim7_cpu_seconds_conversion_witness :
    ((2500000000 : ℕ) : ℚ) / 1000000000 = 5 / 2 ∧
    (⟨"libvirt_domain_cpu_seconds_total", .counter, (5 : ℚ) / 2,
       ["uuid-a", "1"]⟩ : Metric) ∈ (cpuUpdate ⟨some hvGood, some [lvA]⟩).1 := by
  have h := (claim7_cpu_seconds_conversion hvGood [lvA] lvA ⟨1, 2, 2500000000⟩ rfl
    (by decide) (by decide) rfl).1
  have he : ((2500000000 : ℕ) : ℚ) / 1000000000 = 5 / 2 := by norm_num
  refine ⟨he, ?_⟩
  rw [show ((5 : ℚ) / 2) = ((2500000000 : ℕ) : ℚ) / 1000000000 from he.symm]
  exact h

theorem buildLvDomains_congr (hv hvT : Hypervisor)
    (hg : hvT.getXMLDesc = hv.getXMLDesc) (hp : hvT.parseXML = hv.parseXML) :
    ∀ ds, buildLvDomains hvT ds = buildLvDomains hv ds := by
  intro ds
  induction ds with
  | nil => rfl
  | cons d rest ih =>
    unfold buildLvDomains
    rw [hg, hp, ih]

theorem buildLvDomains_none (hv : Hypervisor) (ds : List Domain)
    (h : ∃ d ∈ ds, failsDescriptor hv d = true) : buildLvDomains hv ds = none := by
  induction ds with
  | nil => simp at h
  | cons hd tl ih =>
    rcases h with ⟨d, hd', hfail⟩
    rcases List.mem_cons.mp hd' with rfl | hmem
    · unfold failsDescriptor at hfail
      unfold buildLvDomains
      cases hx : hv.getXMLDesc d with
      | none => rfl
      | some xml =>
        rw [hx] at hfail
        simp at hfail
        simp [hfail]
    · unfold buildLvDomains
      cases hx : hv.getXMLDesc hd with
      | none => rfl
      | some xml =>
        cases hp : hv.parseXML xml with
        | none => simp [hp]
        | some schema => simp [hp, ih ⟨d, hmem, hfail⟩]

theorem collectBody_empty (hv : Hypervisor) (colls : List (String × ModuleKind))
    (durs : String → ℚ) (a : Nat) (h : discoveryFails hv) :
    (collectBody hv colls durs a).samples = [] := by
  rcases h with h | ⟨ds, hds, hfail⟩
  · simp [collectBody, h]
  · simp [collectBody, hds, buildLvDomains_none hv ds hfail]

/-- Claim C2: if listing instances fails, or fetching or parsing any single
instance's descriptor fails, the cycle aborts before any module runs and
emits zero samples of any kind. -/
theorem claim2_discovery_failure_zero_samples (hv : Hypervisor)
    (colls : List (String × ModuleKind)) (durs : String → ℚ)
    (h : discoveryFails hv) :
    (Collect (some hv) colls durs).samples = [] := by
  cases hc : hv.isConnected with
  | true =>
    simp only [Collect, hc, if_true]
    exact collectBody_empty hv colls durs 0 h
  | false =>
    cases hk : hv.connectOk with
    | true =>
      simp only [Collect, hc, hk, Bool.false_eq_true, if_false, if_true]
      exact collectBody_empty _ colls durs 1 h
    | false =>
      simp [Collect, hc, hk]

/-- Witness for C2: a connected hypervisor whose instance listing fails. -/
theorem claim2_discovery_failure_zero_samples_witness :
    (Collect (some { hvGood with listAllDomains := none })
      [("cpu", ModuleKind.cpu)] (fun _ => 1)).samples = [] :=
  claim2_discovery_failure_zero_samples { hvGood with listAllDomains := none }
    [("cpu", ModuleKind.cpu)] (fun _ => 1) (Or.inl rfl)

theorem collectBody_attempts (hv : Hypervisor) (colls : List (String × ModuleKind))
    (durs : String → ℚ) (a : Nat) : (collectBody hv colls durs a).connectAttempts = a := by
  unfold collectBody
  split
  · rfl
  · split <;> rfl

/-- Claim C8: with no client configured the cycle aborts with zero output and
no reconnect attempt; with a client that reports not connected exactly one
reconnect attempt is made, and if that reconnect fails the cycle aborts with
zero output. -/
theorem claim8_connection_gate (colls : List (String × ModuleKind)) (durs : String → ℚ) :
    Collect none colls durs = ⟨[], 0⟩ ∧
    (∀ hv : Hypervisor, (Collect (some hv) colls durs).connectAttempts =
      if hv.isConnected then 0 else 1) ∧
    (∀ hv : Hypervisor, hv.isConnected = false → hv.connectOk = false →
      Collect (some hv) colls durs = ⟨[], 1⟩) := by
  refine ⟨rfl, ?_, ?_⟩
  · intro hv
    cases hc : hv.isConnected with
    | true => simp [Collect, hc, collectBody_attempts]
    | false =>
      cases hk : hv.connectOk with
      | true => simp [Collect, hc, hk, collectBody_attempts]
      | false => simp [Collect, hc, hk]
  · intro hv hc hk
    simp [Collect, hc, hk]

/-- Witness for C8: a disconnected hypervisor whose reconnect fails. -/
theorem claim8_connection_gate_witness :
    Collect (some { hvGood with isConnected := false, connectOk := false })
      [("cpu", ModuleKind.cpu)] (fun _ => 1) = ⟨[], 1⟩ :=
  (claim8_connection_gate [("cpu", ModuleKind.cpu)] (fun _ => 1)).2.2
    { hvGood with isConnected := false, connectOk := false } rfl rfl

theorem buildLoop_initiated_mono (fset : List String) :
    ∀ (keys : List String) (reg : Registry) (acc : List (String × CollectorInst))
      (k : String) (c : CollectorInst), reg.initiated k = some c →
      ((buildLoop fset reg keys acc).1).initiated k = some c := by
  intro keys
  induction keys with
  | nil =>
    intro reg acc k c h
    exact h
  | cons hd tl ih =>
    intro reg acc k c h
    unfold buildLoop
    split
    · exact ih _ _ _ _ h
    · split
      · exact ih _ _ _ _ h
      · rename_i hnone
        apply ih
        by_cases hk : (k == hd) = true
        · rw [eq_of_beq hk, hnone] at h
          exact Option.noConfusion h
        · show (if (k == hd) = true then _ else reg.initiated k) = some c
          rw [if_neg (by simp [hk]), h]

theorem buildLoop_cons (fset : List String) (reg : Registry) (hd : String)
    (tl : List String) (acc : List (String × CollectorInst)) :
    buildLoop fset reg (hd :: tl) acc =
      if (!reg.enabled hd || (!fset.isEmpty && !fset.contains hd)) = true then
        buildLoop fset reg tl acc
      else
        match reg.initiated hd with
        | some c => buildLoop fset reg tl (acc ++ [(hd, c)])
        | none =>
          buildLoop fset
            { reg with
              initiated := fun n =>
                if n == hd then some ⟨reg.factoryKind hd, reg.nextId⟩ else reg.initiated n,
              nextId := reg.nextId + 1 }
            tl (acc ++ [(hd, ⟨reg.factoryKind hd, reg.nextId⟩)]) := rfl

theorem buildLoop_cons_skip (fset : List String) (reg : Registry) (hd : String)
    (tl : List String) (acc : List (String × CollectorInst))
    (h : (!reg.enabled hd || (!fset.isEmpty && !fset.contains hd)) = true) :
    buildLoop fset reg (hd :: tl) acc = buildLoop fset reg tl acc := by
  rw [buildLoop_cons, if_pos h]

theorem buildLoop_cons_hit (fset : List String) (reg : Registry) (hd : String)
    (tl : List String) (acc : List (String × CollectorInst)) (c : CollectorInst)
    (h : (!reg.enabled hd || (!fset.isEmpty && !fset.contains hd)) = false)
    (hc : reg.initiated hd = some c) :
    buildLoop fset reg (hd :: tl) acc = buildLoop fset reg tl (acc ++ [(hd, c)]) := by
  rw [buildLoop_cons, if_neg (by rw [h]; simp), hc]

theorem buildLoop_cons_miss (fset : List String) (reg : Registry) (hd : String)
    (tl : List String) (acc : List (String × CollectorInst))
    (h : (!reg.enabled hd || (!fset.isEmpty && !fset.contains hd)) = false)
    (hc : reg.initiated hd = none) :
    buildLoop fset reg (hd :: tl) acc =
      buildLoop fset
        { reg with
          initiated := fun n =>
            if n == hd then some ⟨reg.factoryKind hd, reg.nextId⟩ else reg.initiated n,
          nextId := reg.nextId + 1 }
        tl (acc ++ [(hd, ⟨reg.factoryKind hd, reg.nextId⟩)]) := by
  rw [buildLoop_cons, if_neg (by rw [h]; simp), hc]

theorem buildLoop_mem_final (fset : List String) :
    ∀ (keys : List String) (reg : Registry) (acc : List (String × CollectorInst))
      (p : String × CollectorInst), p ∈ (buildLoop fset reg keys acc).2 →
      p ∈ acc ∨ ((buildLoop fset reg keys acc).1).initiated p.1 = some p.2 := by
  intro keys
  induction keys with
  | nil =>
    intro reg acc p hp
    exact Or.inl hp
  | cons hd tl ih =>
    intro reg acc p hp
    by_cases hskip : (!reg.enabled hd || (!fset.isEmpty && !fset.contains hd)) = true
    · rw [buildLoop_cons_skip fset reg hd tl acc hskip] at hp ⊢
      exact ih _ _ _ hp
    · have hskip' := Bool.not_eq_true _ ▸ hskip
      cases hcache : reg.initiated hd with
      | some c =>
        rw [buildLoop_cons_hit fset reg hd tl acc c hskip' hcache] at hp ⊢
        rcases ih _ _ _ hp with hacc | hfin
        · rcases List.mem_append.mp hacc with h | h
          · exact Or.inl h
          · rcases List.mem_singleton.mp h with rfl
            exact Or.inr (buildLoop_initiated_mono fset tl reg _ hd c hcache)
        · exact Or.inr hfin
      | none =>
        rw [buildLoop_cons_miss fset reg hd tl acc hskip' hcache] at hp ⊢
        rcases ih _ _ _ hp with hacc | hfin
        · rcases List.mem_append.mp hacc with h | h
          · exact Or.inl h
          · rcases List.mem_singleton.mp h with rfl
            refine Or.inr (buildLoop_initiated_mono fset tl _ _ hd _ ?_)
            show (if (hd == hd) = true then _ else reg.initiated hd) = _
            rw [if_pos (by simp)]
        · exact Or.inr hfin

theorem buildLoop_mem_cached (fset : List String) :
    ∀ (keys : List String) (reg : Registry) (acc : List (String × CollectorInst))
      (k : String) (c : CollectorInst), reg.initiated k = some c →
      ∀ c', (k, c') ∈ (buildLoop fset reg keys acc).2 → (k, c') ∈ acc ∨ c' = c := by
  intro keys
  induction keys with
  | nil =>
    intro reg acc k c _ c' hp
    exact Or.inl hp
  | cons hd tl ih =>
    intro reg acc k c h c' hp
    by_cases hskip : (!reg.enabled hd || (!fset.isEmpty && !fset.contains hd)) = true
    · rw [buildLoop_cons_skip fset reg hd tl acc hskip] at hp
      exact ih _ _ _ _ h _ hp
    · have hskip' := Bool.not_eq_true _ ▸ hskip
      cases hcache : reg.initiated hd with
      | some chd =>
        rw [buildLoop_cons_hit fset reg hd tl acc chd hskip' hcache] at hp
        rcases ih _ _ _ _ h _ hp with hacc | hc'
        · rcases List.mem_append.mp hacc with hl | hl
          · exact Or.inl hl
          · rcases List.mem_singleton.mp hl with heq
            have hk : k = hd := congrArg Prod.fst heq
            have hcc : c' = chd := congrArg Prod.snd heq
            rw [hk] at h
            rw [h] at hcache
            exact Or.inr (hcc.trans (Option.some.inj hcache).symm)
        · exact Or.inr hc'
      | none =>
        have hk : (k == hd) = false := by
          by_cases hkk : (k == hd) = true
          · rw [eq_of_beq hkk, hcache] at h
            exact Option.noConfusion h
          · simp [hkk]
        rw [buildLoop_cons_miss fset reg hd tl acc hskip' hcache] at hp
        have hcarry : (if (k == hd) = true then some ⟨reg.factoryKind hd, reg.nextId⟩
            else reg.initiated k) = some c := by
          rw [hk]
          simpa using h
        rcases ih _ _ _ _ hcarry _ hp with hacc | hc'
        · rcases List.mem_append.mp hacc with hl | hl
          · exact Or.inl hl
          · rcases List.mem_singleton.mp hl with heq
            have : k = hd := congrArg Prod.fst heq
            rw [this] at hk
            simp at hk
        · exact Or.inr hc'

/-- Claim C9: repeated calls to `NewLibvirtCollector` reuse the cached
collector instance for a given module name: the instance a first call returns
for a name is in the cache afterwards, a second call returns the identical
instance for that name, and the cache entry is unchanged, so each module is
constructed at most once per process. -/
theorem claim9_collector_cache (reg : Registry) (fl1 fl2 : List String)
    (reg1 reg2 : Registry) (colls1 colls2 : List (String × CollectorInst))
    (name : String) (c1 c2 : CollectorInst)
    (h1 : NewLibvirtCollector reg fl1 = some (reg1, colls1))
    (h2 : NewLibvirtCollector reg1 fl2 = some (reg2, colls2))
    (l1 : colls1.lookup name = some c1)
    (l2 : colls2.lookup name = some c2) :
    c1 = c2 ∧ reg1.initiated name = some c1 ∧ reg2.initiated name = some c1 := by
  unfold NewLibvirtCollector at h1 h2
  cases hf1 : checkFilters reg fl1 with
  | none =>
    rw [hf1] at h1
    exact Option.noConfusion h1
  | some fset1 =>
    rw [hf1] at h1
    have hb1 : buildLoop fset1 reg reg.names [] = (reg1, colls1) := Option.some.inj h1
    cases hf2 : checkFilters reg1 fl2 with
    | none =>
      rw [hf2] at h2
      exact Option.noConfusion h2
    | some fset2 =>
      rw [hf2] at h2
      have hb2 : buildLoop fset2 reg1 reg1.names [] = (reg2, colls2) := Option.some.inj h2
      have hm1 : (name, c1) ∈ colls1 := lookup_mem colls1 name c1 l1
      have hm2 : (name, c2) ∈ colls2 := lookup_mem colls2 name c2 l2
      have hcache1 : reg1.initiated name = some c1 := by
        have := buildLoop_mem_final fset1 reg.names reg [] (name, c1) (by rw [hb1]; exact hm1)
        rcases this with h | h
        · simp at h
        · rw [hb1] at h
          exact h
      have hc21 : c2 = c1 := by
        have := buildLoop_mem_cached fset2 reg1.names reg1 [] name c1 hcache1 c2
          (by rw [hb2]; exact hm2)
        rcases this with h | h
        · simp at h
        · exact h
      have hcache2 : reg2.initiated name = some c1 := by
        have := buildLoop_initiated_mono fset2 reg1.names reg1 [] name c1 hcache1
        rw [hb2] at this
        exact this
      exact ⟨hc21.symm, hcache1, hcache2⟩

/-- A concrete registry: two registered, enabled, not yet constructed
collectors. -/
def regA : Registry :=
  { names := ["cpu", "block"]
    enabled := fun _ => true
    factoryKind := fun n => if n == "cpu" then ModuleKind.cpu else ModuleKind.block
    initiated := fun _ => none
    nextId := 0 }

/-- The result of the first `NewLibvirtCollector` call on `regA`. -/
def buildA : Registry × List (String × CollectorInst) := buildLoop [] regA regA.names []

/-- The result of the second `NewLibvirtCollector` call, on the state the
first call left behind. -/
def buildB : Registry × List (String × CollectorInst) := buildLoop [] buildA.1 buildA.1.names []

/-- Witness for C9: two successive calls on the concrete registry yield the
identical cpu collector instance, and the cache pins it. -/
theorem claim9_collector_cache_witness :
    buildA.1.initiated "cpu" = some ⟨ModuleKind.cpu, 0⟩ ∧
    buildB.1.initiated "cpu" = some ⟨ModuleKind.cpu, 0⟩ := by
  have h := claim9_collector_cache regA [] [] buildA.1 buildB.1 buildA.2 buildB.2 "cpu"
    ⟨ModuleKind.cpu, 0⟩ ⟨ModuleKind.cpu, 0⟩ rfl rfl rfl rfl
  exact ⟨h.2.1, h.2.2⟩

end LibvirtExporter
